import Mathlib

/-
Verification of the gesture-whiteboarding translation loop.

The model below is a shallow embedding of the per-frame gesture logic of
src/client/src/App.tsx (the predictWebcam closure) and of the geometry
helper calculateDistance from the utility module.  Normalized landmark
coordinates and canvas dimensions are rationals; the square-root distance
is an exact real number.
-/

namespace GestureWB

/-- A single hand landmark as produced by the detector: normalized
coordinates in [0,1] space.  The translation loop reads only x and y;
z is carried but never used. -/
structure Landmark where
  x : ℚ
  y : ℚ
  z : ℚ
deriving DecidableEq, Repr

/-- A 2D point, the argument type of calculateDistance. -/
structure Point where
  x : ℚ
  y : ℚ
deriving DecidableEq, Repr

/-- The radicand of calculateDistance: the sum
Math.pow(p2.x - p1.x, 2) + Math.pow(p2.y - p1.y, 2). -/
def calculateDistanceSq (p1 p2 : Point) : ℚ :=
  (p2.x - p1.x) ^ 2 + (p2.y - p1.y) ^ 2

/-- calculateDistance from the geometry utility module:
Math.sqrt(Math.pow(p2.x - p1.x, 2) + Math.pow(p2.y - p1.y, 2)). -/
noncomputable def calculateDistance (p1 p2 : Point) : ℝ :=
  Real.sqrt ((calculateDistanceSq p1 p2 : ℚ) : ℝ)

/-- The constant PINCH_THRESHOLD = 0.05 of predictWebcam. -/
def PINCH_THRESHOLD : ℚ := 5 / 100

/-- A synthetic pointer event dispatched through triggerEvent:
mousedown, mousemove or mouseup, with client coordinates. -/
inductive PEvent where
  | down (x y : ℚ)
  | move (x y : ℚ)
  | up (x y : ℚ)
deriving DecidableEq, Repr

/-- A detected hand: the ordered 21-point landmark set. -/
abbrev Hand := Fin 21 → Landmark

/-- The value results.landmarks of one frame: the list of detected hands,
possibly empty. -/
abbrev Frame := List Hand

/-- The mutable state the tracking loop keeps across frames: the
wasPinching flag of the effect closure and the isDrawing React state. -/
structure TState where
  wasPinching : Bool
  isDrawing : Bool
deriving DecidableEq, Repr

/-- Initial loop state: wasPinching = false, isDrawing = false. -/
def initState : TState := { wasPinching := false, isDrawing := false }

/-- thumbTip = hand[4]. -/
def thumbTip (hand : Hand) : Landmark := hand 4

/-- indexTip = hand[8]. -/
def indexTip (hand : Hand) : Landmark := hand 8

/-- The squared pinch distance of a hand, between the thumb tip and the
index fingertip, using only their x and y coordinates. -/
def handDistanceSq (hand : Hand) : ℚ :=
  calculateDistanceSq
    { x := (thumbTip hand).x, y := (thumbTip hand).y }
    { x := (indexTip hand).x, y := (indexTip hand).y }

/-- The pinch distance computed in predictWebcam: calculateDistance applied
to the x and y coordinates of hand[4] and hand[8]. -/
noncomputable def handDistance (hand : Hand) : ℝ :=
  calculateDistance
    { x := (thumbTip hand).x, y := (thumbTip hand).y }
    { x := (indexTip hand).x, y := (indexTip hand).y }

/-- The pinch classification isPinching = distance < PINCH_THRESHOLD,
decided on the rational squared distance.  The theorem
pinch_iff_lt_threshold shows this coincides with comparing the
square-root distance against 0.05 as the source writes it. -/
def pinchOf (hand : Hand) : Bool :=
  decide (handDistanceSq hand < PINCH_THRESHOLD ^ 2)

/-- The screen mapping of predictWebcam:
x = (1 - indexTip.x) * width and y = indexTip.y * height. -/
def mapToScreen (lm : Landmark) (w h : ℚ) : ℚ × ℚ :=
  ((1 - lm.x) * w, lm.y * h)

/-- One pass of the gesture logic of predictWebcam over the detection
result of a single frame.  If no hand is detected the branch is skipped
entirely; otherwise the first hand is classified, the index fingertip is
mapped to screen coordinates, events are dispatched, and wasPinching is
persisted.  Note the release branch dispatches mouseup and then falls
through to the unconditional hover mousemove. -/
def predictWebcamStep (st : TState) (frame : Frame) (w h : ℚ) :
    TState × List PEvent :=
  match frame with
  | [] => (st, [])
  | hand :: _ =>
      let isPinching := pinchOf hand
      let xy := mapToScreen (indexTip hand) w h
      if isPinching then
        if !st.wasPinching then
          ({ wasPinching := isPinching, isDrawing := true },
            [PEvent.down xy.1 xy.2])
        else
          ({ wasPinching := isPinching, isDrawing := st.isDrawing },
            [PEvent.move xy.1 xy.2])
      else
        if st.wasPinching then
          ({ wasPinching := isPinching, isDrawing := false },
            [PEvent.up xy.1 xy.2, PEvent.move xy.1 xy.2])
        else
          ({ wasPinching := isPinching, isDrawing := st.isDrawing },
            [PEvent.move xy.1 xy.2])

/-- The frame loop: run predictWebcamStep over a list of frames, threading
the state and concatenating the dispatched events. -/
def runFrames (st : TState) (frames : List Frame) (w h : ℚ) :
    TState × List PEvent :=
  match frames with
  | [] => (st, [])
  | f :: rest =>
      let step := predictWebcamStep st f w h
      let restRun := runFrames step.1 rest w h
      (restRun.1, step.2 ++ restRun.2)

/-- Whether an event is a pointer-down. -/
def isDown : PEvent → Bool
  | .down _ _ => true
  | _ => false

/-- Whether an event is a pointer-up. -/
def isUp : PEvent → Bool
  | .up _ _ => true
  | _ => false

/-- A hand whose thumb tip and index fingertip are exactly 0.05 apart:
thumb at (0, 0), every other landmark at (0.03, 0.04). -/
def boundaryHand : Hand := fun i =>
  if i = 4 then { x := 0, y := 0, z := 0 }
  else { x := 3/100, y := 4/100, z := 0 }

/-- A hand far from pinching: thumb at (0, 0), every other landmark,
including the index fingertip, at (0.9, 0.9). -/
def openHand : Hand := fun i =>
  if i = 4 then { x := 0, y := 0, z := 0 }
  else { x := 9/10, y := 9/10, z := 0 }

/-- The hand of the end-to-end scenario: thumb at (0.50, 0.50), index
fingertip at (0.52, 0.50). -/
def c6Hand : Hand := fun i =>
  if i = 4 then { x := 1/2, y := 1/2, z := 0 }
  else { x := 13/25, y := 1/2, z := 0 }

lemma pinchOf_iff (hand : Hand) :
    pinchOf hand = true ↔ handDistance hand < (5 : ℝ) / 100 := by
  have h1 : handDistance hand = Real.sqrt ((handDistanceSq hand : ℚ) : ℝ) := rfl
  rw [h1, Real.sqrt_lt' (by norm_num : (0:ℝ) < 5/100), pinchOf,
    decide_eq_true_iff]
  rw [show ((5:ℝ)/100)^2 = ((PINCH_THRESHOLD^2 : ℚ) : ℝ) by
    norm_num [PINCH_THRESHOLD]]
  exact_mod_cast Iff.rfl

lemma pinchOf_false_iff (hand : Hand) :
    pinchOf hand = false ↔ (5 : ℝ) / 100 ≤ handDistance hand := by
  rw [← not_lt, ← pinchOf_iff hand]
  simp

lemma openHand_distSq : handDistanceSq openHand = 162/100 := by
  have h4 : thumbTip openHand = { x := 0, y := 0, z := 0 } := rfl
  have h8 : indexTip openHand = { x := 9/10, y := 9/10, z := 0 } := rfl
  rw [handDistanceSq, h4, h8]
  norm_num [calculateDistanceSq]

lemma pinchOf_openHand : pinchOf openHand = false := by
  rw [pinchOf, decide_eq_false_iff_not, openHand_distSq]
  norm_num [PINCH_THRESHOLD]

lemma boundaryHand_distSq : handDistanceSq boundaryHand = 1/400 := by
  have h4 : thumbTip boundaryHand = { x := 0, y := 0, z := 0 } := rfl
  have h8 : indexTip boundaryHand = { x := 3/100, y := 4/100, z := 0 } := rfl
  rw [handDistanceSq, h4, h8]
  norm_num [calculateDistanceSq]

lemma pinchOf_boundaryHand : pinchOf boundaryHand = false := by
  rw [pinchOf, decide_eq_false_iff_not, boundaryHand_distSq]
  norm_num [PINCH_THRESHOLD]

lemma boundaryHand_dist : handDistance boundaryHand = (5 : ℝ) / 100 := by
  have h1 : handDistance boundaryHand
      = Real.sqrt ((handDistanceSq boundaryHand : ℚ) : ℝ) := rfl
  rw [h1, boundaryHand_distSq,
    show (((1:ℚ)/400 : ℚ) : ℝ) = ((5:ℝ)/100)^2 by norm_num]
  exact Real.sqrt_sq (by norm_num)

/-- C2: the pinch classification holds exactly when the computed distance is
strictly below the threshold 0.05 = 5/100; it fails exactly when the distance
is at least 0.05, and in particular a hand whose tips are exactly 0.05 apart
is classified as not pinching. -/
theorem pinch_iff_lt_threshold :
    (∀ hand : Hand, pinchOf hand = true ↔ handDistance hand < (5 : ℝ) / 100)
    ∧ (∀ hand : Hand, pinchOf hand = false ↔ (5 : ℝ) / 100 ≤ handDistance hand)
    ∧ handDistance boundaryHand = (5 : ℝ) / 100
    ∧ pinchOf boundaryHand = false :=
  ⟨pinchOf_iff, pinchOf_false_iff, boundaryHand_dist, pinchOf_boundaryHand⟩

/-- C10: calculateDistance is symmetric in its two arguments and always
non-negative. -/
theorem calculateDistance_symm_nonneg :
    ∀ p1 p2 : Point, calculateDistance p1 p2 = calculateDistance p2 p1
      ∧ 0 ≤ calculateDistance p1 p2 := by
  intro p1 p2
  have h : calculateDistanceSq p1 p2 = calculateDistanceSq p2 p1 := by
    unfold calculateDistanceSq; ring
  exact ⟨by unfold calculateDistance; rw [h], Real.sqrt_nonneg _⟩

/-- C4: the screen mapping sends a landmark to
((1 - x) * width, y * height); landmark x = 0 maps to pixel x = width,
x = 1 to pixel 0, x = 1/2 to width / 2, and the y coordinate is scaled
with no vertical flip. -/
theorem mapToScreen_spec :
    (∀ (lm : Landmark) (w h : ℚ),
      mapToScreen lm w h = ((1 - lm.x) * w, lm.y * h))
    ∧ (∀ (y z w h : ℚ),
        (mapToScreen { x := 0, y := y, z := z } w h).1 = w
        ∧ (mapToScreen { x := 1, y := y, z := z } w h).1 = 0
        ∧ (mapToScreen { x := 1/2, y := y, z := z } w h).1 = w / 2
        ∧ (mapToScreen { x := 0, y := y, z := z } w h).2 = y * h) :=
  ⟨fun lm w h => rfl,
   fun y z w h =>
    ⟨by simp [mapToScreen], by simp [mapToScreen],
     by simp [mapToScreen]; ring, by simp [mapToScreen]⟩⟩

/-- C5: a frame with no detected hand dispatches no pointer events and
leaves the loop state, including an active drawing state, unchanged. -/
theorem no_hand_noop : ∀ (st : TState) (w h : ℚ),
    predictWebcamStep st [] w h = (st, []) :=
  fun _ _ _ => rfl

/-- C8: hands beyond the first are ignored: two detection results that agree
on the first hand yield the same dispatched events and the same next state,
whatever the additional hands are. -/
theorem extra_hands_ignored :
    ∀ (st : TState) (hand : Hand) (rest rest2 : List Hand) (w h : ℚ),
      predictWebcamStep st (hand :: rest) w h
        = predictWebcamStep st (hand :: rest2) w h :=
  fun _ _ _ _ _ _ => rfl

/-- C6: with the thumb at (0.50, 0.50), the index fingertip at (0.52, 0.50),
a 1000 by 800 canvas and a non-pinching previous state, the distance is
0.02 = 2/100, the frame is classified pinching, and a single pointer-down is
dispatched at pixel (480, 400). -/
theorem c6_end_to_end :
    handDistance c6Hand = (2 : ℝ) / 100
    ∧ pinchOf c6Hand = true
    ∧ predictWebcamStep initState [c6Hand] 1000 800
        = ({ wasPinching := true, isDrawing := true }, [PEvent.down 480 400]) := by
  have h4 : thumbTip c6Hand = { x := 1/2, y := 1/2, z := 0 } := rfl
  have h8 : indexTip c6Hand = { x := 13/25, y := 1/2, z := 0 } := rfl
  have h2 : handDistanceSq c6Hand = 1/2500 := by
    rw [handDistanceSq, h4, h8]; norm_num [calculateDistanceSq]
  have hp : pinchOf c6Hand = true := by
    rw [pinchOf, decide_eq_true_iff, h2]; norm_num [PINCH_THRESHOLD]
  refine ⟨?_, hp, ?_⟩
  · have h1 : handDistance c6Hand
        = Real.sqrt ((handDistanceSq c6Hand : ℚ) : ℝ) := rfl
    rw [h1, h2, show (((1:ℚ)/2500 : ℚ) : ℝ) = ((2:ℝ)/100)^2 by norm_num]
    exact Real.sqrt_sq (by norm_num)
  · simp only [predictWebcamStep, hp, initState, mapToScreen, h8,
      Bool.not_false, if_true]
    norm_num

/-- C3 counterexample: on a release frame (previous state pinching, current
hand not pinching) the loop dispatches two pointer events, mouseup followed
by the unconditional hover mousemove, not exactly one. -/
theorem release_frame_two_events :
    (predictWebcamStep { wasPinching := true, isDrawing := true }
        [openHand] 1000 800).2
      = [PEvent.up 100 720, PEvent.move 100 720]
    ∧ (predictWebcamStep { wasPinching := true, isDrawing := true }
        [openHand] 1000 800).2.length ≠ 1 := by
  have h8 : indexTip openHand = { x := 9/10, y := 9/10, z := 0 } := rfl
  have hstep : (predictWebcamStep { wasPinching := true, isDrawing := true }
      [openHand] 1000 800).2 = [PEvent.up 100 720, PEvent.move 100 720] := by
    simp only [predictWebcamStep, pinchOf_openHand, mapToScreen, h8,
      Bool.false_eq_true, if_false, if_true]
    norm_num
  exact ⟨hstep, by rw [hstep]; simp⟩

/-- C3 amended: per detected frame the dispatch follows the four-case table
of the spec, except that the release case (not pinching, was pinching) emits
pointer-up followed by a hover pointer-move; the other three cases emit
exactly the single event of the table. -/
theorem event_table (st : TState) (hand : Hand) (rest : List Hand) (w h : ℚ) :
    (predictWebcamStep st (hand :: rest) w h).2
      = (if pinchOf hand then
           if st.wasPinching then
             [PEvent.move (mapToScreen (indexTip hand) w h).1
               (mapToScreen (indexTip hand) w h).2]
           else
             [PEvent.down (mapToScreen (indexTip hand) w h).1
               (mapToScreen (indexTip hand) w h).2]
         else
           if st.wasPinching then
             [PEvent.up (mapToScreen (indexTip hand) w h).1
                (mapToScreen (indexTip hand) w h).2,
              PEvent.move (mapToScreen (indexTip hand) w h).1
                (mapToScreen (indexTip hand) w h).2]
           else
             [PEvent.move (mapToScreen (indexTip hand) w h).1
               (mapToScreen (indexTip hand) w h).2]) := by
  cases hp : pinchOf hand <;> cases hw : st.wasPinching <;>
    simp [predictWebcamStep, hp, hw]

/-- Replace the z coordinate of every landmark of a hand, keeping x and y. -/
def setZ (hand : Hand) (zf : Fin 21 → ℚ) : Hand :=
  fun i => { x := (hand i).x, y := (hand i).y, z := zf i }

/-- C7: the pinch distance is taken between the landmarks at the fixed
indices 4 (thumb tip) and 8 (index fingertip) and equals the planar
Euclidean distance on their x and y coordinates in normalized space;
changing z coordinates changes neither the distance nor the
classification. -/
theorem distance_planar_tips :
    (∀ hand : Hand, handDistance hand
        = Real.sqrt ((((hand 8).x - (hand 4).x : ℚ) : ℝ) ^ 2
            + (((hand 8).y - (hand 4).y : ℚ) : ℝ) ^ 2))
    ∧ (∀ (hand : Hand) (zf : Fin 21 → ℚ),
        handDistance (setZ hand zf) = handDistance hand
        ∧ pinchOf (setZ hand zf) = pinchOf hand) := by
  constructor
  · intro hand
    have h1 : handDistance hand
        = Real.sqrt ((handDistanceSq hand : ℚ) : ℝ) := rfl
    have h2 : handDistanceSq hand
        = ((hand 8).x - (hand 4).x) ^ 2 + ((hand 8).y - (hand 4).y) ^ 2 := rfl
    rw [h1, h2]
    congr 1
    push_cast
    ring
  · intro hand zf
    have h : handDistanceSq (setZ hand zf) = handDistanceSq hand := rfl
    have h1 : handDistance (setZ hand zf)
        = Real.sqrt ((handDistanceSq (setZ hand zf) : ℚ) : ℝ) := rfl
    have h2 : handDistance hand
        = Real.sqrt ((handDistanceSq hand : ℚ) : ℝ) := rfl
    exact ⟨by rw [h1, h, ← h2], by rw [pinchOf, pinchOf, h]⟩

lemma step_preserves_inv (st : TState) (f : Frame) (w h : ℚ)
    (hinv : st.isDrawing = st.wasPinching) :
    (predictWebcamStep st f w h).1.isDrawing
      = (predictWebcamStep st f w h).1.wasPinching := by
  cases f with
  | nil => exact hinv
  | cons hand rest =>
      cases hp : pinchOf hand <;> cases hw : st.wasPinching <;>
        simp [predictWebcamStep, hp, hw] <;> simpa [hw] using hinv

lemma runFrames_inv (frames : List Frame) (st : TState) (w h : ℚ)
    (hinv : st.isDrawing = st.wasPinching) :
    (runFrames st frames w h).1.isDrawing
      = (runFrames st frames w h).1.wasPinching := by
  induction frames generalizing st with
  | nil => exact hinv
  | cons f rest ih =>
      simp only [runFrames]
      exact ih _ (step_preserves_inv st f w h hinv)

/-- C9: starting from the initial state, after any sequence of frames the
isDrawing indicator equals the persisted wasPinching flag; and per frame,
isDrawing becomes true exactly when a pointer-down is dispatched, becomes
false exactly when a pointer-up is dispatched, and is unchanged
otherwise. -/
theorem isDrawing_matches_pinch_state :
    (∀ (frames : List Frame) (w h : ℚ),
      (runFrames initState frames w h).1.isDrawing
        = (runFrames initState frames w h).1.wasPinching)
    ∧ (∀ (st : TState) (f : Frame) (w h : ℚ),
        (predictWebcamStep st f w h).1.isDrawing
          = (if (predictWebcamStep st f w h).2.any isDown then true
             else if (predictWebcamStep st f w h).2.any isUp then false
             else st.isDrawing)) := by
  constructor
  · intro frames w h
    exact runFrames_inv frames initState w h rfl
  · intro st f w h
    cases f with
    | nil => simp [predictWebcamStep]
    | cons hand rest =>
        cases hp : pinchOf hand <;> cases hw : st.wasPinching <;>
          simp [predictWebcamStep, hp, hw, isDown, isUp]

/-- The projection of a pointer event to its stroke boundary role:
down, up, or none for a move. -/
inductive Edge where
  | down
  | up
deriving DecidableEq, Repr

/-- Stroke boundary role of one event. -/
def edgeOf : PEvent → Option Edge
  | .down _ _ => some Edge.down
  | .up _ _ => some Edge.up
  | .move _ _ => none

/-- The subsequence of down and up events of an event list. -/
def edgeTags (evs : List PEvent) : List Edge := evs.filterMap edgeOf

/-- The pinch classification of the first hand of a frame; false when the
frame has no hand. -/
def framePinch (f : Frame) : Bool :=
  match f with
  | [] => false
  | hand :: _ => pinchOf hand

/-- The number of maximal pinching runs of a classification sequence: a run
starts at every frame classified true whose predecessor (or the given
initial state) is false. -/
def pinchRunCount (prev : Bool) : List Bool → ℕ
  | [] => 0
  | b :: t =>
      if b && !prev then pinchRunCount b t + 1 else pinchRunCount b t

/-- The classification of the final frame, or the initial state for an
empty sequence. -/
def lastBool (prev : Bool) : List Bool → Bool
  | [] => prev
  | b :: t => lastBool b t

/-- The strict alternation down, up, down, up, ... of n down-up pairs. -/
def altDU : ℕ → List Edge
  | 0 => []
  | n + 1 => Edge.down :: Edge.up :: altDU n

/-- The down and up edges produced by a classification sequence started in
the given previous state. -/
def edgePattern (prev : Bool) : List Bool → List Edge
  | [] => []
  | b :: t =>
      (if b && !prev then [Edge.down]
       else if !b && prev then [Edge.up] else []) ++ edgePattern b t

lemma step_edgeTags (st : TState) (hand : Hand) (rest : List Hand) (w h : ℚ) :
    edgeTags (predictWebcamStep st (hand :: rest) w h).2
      = (if pinchOf hand && !st.wasPinching then [Edge.down]
         else if !(pinchOf hand) && st.wasPinching then [Edge.up]
         else []) := by
  cases hp : pinchOf hand <;> cases hw : st.wasPinching <;>
    simp [predictWebcamStep, hp, hw, edgeTags, edgeOf, List.filterMap_cons]

lemma step_wasPinching (st : TState) (hand : Hand) (rest : List Hand)
    (w h : ℚ) :
    (predictWebcamStep st (hand :: rest) w h).1.wasPinching
      = pinchOf hand := by
  cases hp : pinchOf hand <;> cases hw : st.wasPinching <;>
    simp [predictWebcamStep, hp, hw]

lemma edgeTags_append (l1 l2 : List PEvent) :
    edgeTags (l1 ++ l2) = edgeTags l1 ++ edgeTags l2 := by
  simp [edgeTags, List.filterMap_append]

lemma runFrames_edgeTags (frames : List Frame) (st : TState) (w h : ℚ)
    (hdet : ∀ f ∈ frames, f ≠ []) :
    edgeTags (runFrames st frames w h).2
      = edgePattern st.wasPinching (frames.map framePinch) := by
  induction frames generalizing st with
  | nil => simp [runFrames, edgeTags, edgePattern]
  | cons f rest ih =>
      cases f with
      | nil => exact absurd rfl (hdet [] (List.mem_cons_self [] rest))
      | cons hand tail =>
          have hdet2 : ∀ g ∈ rest, g ≠ [] :=
            fun g hg => hdet g (List.mem_cons_of_mem _ hg)
          simp only [runFrames]
          rw [edgeTags_append, step_edgeTags, ih _ hdet2, step_wasPinching]
          simp [edgePattern, framePinch]

lemma edgePattern_alt (bs : List Bool) : ∀ prev : Bool,
    lastBool prev bs = false →
    edgePattern prev bs
      = (if prev then Edge.up :: altDU (pinchRunCount prev bs)
         else altDU (pinchRunCount prev bs)) := by
  induction bs with
  | nil =>
      intro prev hlast
      cases prev with
      | false => simp [edgePattern, pinchRunCount, altDU]
      | true => simp [lastBool] at hlast
  | cons b t ih =>
      intro prev hlast
      have hlast2 : lastBool b t = false := hlast
      cases prev <;> cases b <;>
        simp [edgePattern, pinchRunCount, altDU, ih _ hlast2]

/-- C1: over any frame sequence in which a hand is detected on every frame
and whose final frame is classified not pinching (every pinch is
released), the dispatched events, projected to downs and ups, form the
exact alternation down, up, down, up, ... with one down-up pair per
maximal pinching run; in particular each continuous pinch contributes
exactly one down followed (after its moves) by exactly one up, and no two
consecutive downs or ups ever occur. -/
theorem pinch_bracketing (frames : List Frame) (w h : ℚ)
    (hdet : ∀ f ∈ frames, f ≠ [])
    (hend : lastBool false (frames.map framePinch) = false) :
    edgeTags (runFrames initState frames w h).2
      = altDU (pinchRunCount false (frames.map framePinch)) := by
  rw [runFrames_edgeTags frames initState w h hdet]
  simpa [initState] using
    edgePattern_alt (frames.map framePinch) false hend

/-- A hand whose thumb tip and index fingertip coincide, hence pinching. -/
def pinchHand : Hand := fun _ => { x := 1/2, y := 1/2, z := 0 }

/-- A five-frame scenario simulating pinch, pinch, release, pinch,
release. -/
def demoFrames : List Frame :=
  [[pinchHand], [pinchHand], [openHand], [pinchHand], [openHand]]

lemma pinchOf_pinchHand : pinchOf pinchHand = true := by
  have h0 : handDistanceSq pinchHand = 0 := by
    rw [handDistanceSq]
    norm_num [calculateDistanceSq, pinchHand, thumbTip, indexTip]
  rw [pinchOf, decide_eq_true_iff, h0]
  norm_num [PINCH_THRESHOLD]

/-- Witness for C1: the pinch, release, pinch, release scenario detects a
hand on every frame and ends released, so the theorem applies to it. -/
theorem pinch_bracketing_witness :
    (∀ f ∈ demoFrames, f ≠ [])
    ∧ lastBool false (demoFrames.map framePinch) = false
    ∧ edgeTags (runFrames initState demoFrames 1000 800).2
        = altDU (pinchRunCount false (demoFrames.map framePinch)) := by
  have hdet : ∀ f ∈ demoFrames, f ≠ [] := by
    intro f hf
    simp only [demoFrames, List.mem_cons, List.not_mem_nil, or_false] at hf
    rcases hf with h | h | h | h | h <;> subst h <;> simp
  have hend : lastBool false (demoFrames.map framePinch) = false := by
    simp [demoFrames, framePinch, pinchOf_pinchHand, pinchOf_openHand,
      lastBool]
  exact ⟨hdet, hend, pinch_bracketing demoFrames 1000 800 hdet hend⟩

end GestureWB
